import Mathlib

/-!
# Verification of the "Synthétiseur de rêve" pipeline core

Shallow embedding of the pipeline-and-persistence core of the repository
(`backend.py`, `backendv2.py`, `app.py`, `appv2.py`) together with proofs of
the specification's claims about it.

Modelling conventions:
* Python floats are idealised as real numbers (`ℝ`); `math.exp` becomes
  `Real.exp`.
* Python dicts appearing as emotion-score mappings are modelled as
  association lists `List (String × ℝ)` in insertion order (Python dicts
  preserve insertion order and this order is what `max`, `items()` and dict
  comprehensions traverse).
* A Python function that may raise is modelled with `Except String`, the
  `String` being the exception's message (`str(e)`).
* `round(x, 4)` is modelled as rounding `x * 10 ^ 4` to the nearest integer.
  Python uses round-half-to-even while `round` in Mathlib is
  round-half-up; the two agree except exactly at midpoints, and every proof
  below depends only on `|round4 x - x| ≤ 1 / 20000` together with
  monotonicity, which hold for either tie rule.
-/

namespace DreamSynth

/-! ## Score normalizer (`backend.py` `softmax`, `backendv2.py` `softmax`) -/

/-- `round(x, 4)`: round to 4 decimal digits. -/
noncomputable def round4 (x : ℝ) : ℝ :=
  ((round (x * 10000) : ℤ) : ℝ) / 10000

/-- `backendv2.py` `softmax`: for each entry, `exp(v * 10)` divided by the sum
of `exp(w * 10)` over all values `w` of the mapping.  No rounding. -/
noncomputable def softmax_v2 (predictions : List (String × ℝ)) : List (String × ℝ) :=
  predictions.map (fun kv =>
    (kv.1, Real.exp (kv.2 * 10) / (predictions.map (fun kw => Real.exp (kw.2 * 10))).sum))

/-- `backend.py` `softmax`: build `exp_vals = {k : exp(v * 10)}`, divide each
by the total, and round each output to 4 decimal digits. -/
noncomputable def softmax_b (preds : List (String × ℝ)) : List (String × ℝ) :=
  let exp_vals := preds.map (fun kv => (kv.1, Real.exp (kv.2 * 10)))
  let total := (exp_vals.map Prod.snd).sum
  exp_vals.map (fun kv => (kv.1, round4 (kv.2 / total)))

/-- Second component of the `i`-th entry of an association list (with a
default), used to speak about "the output probability of the label at
position `i`". -/
def entryVal (l : List (String × ℝ)) (i : ℕ) : ℝ :=
  (l.getD i ("", 0)).2

/-! ## Python `max(d, key=d.get)` (`backendv2.py` line 227, `app.py` line 64)

Python's `max` over a dict iterates the keys in insertion order, keeps the
current best and replaces it only when a strictly greater value is seen, so
ties are resolved in favour of the first key encountered.  On an empty dict
it raises `ValueError`. -/

/-- Loop of Python `max` with a key function: `bk`/`bv` is the current best
entry, replaced only on strictly greater value. -/
noncomputable def pymaxGo (bk : String) (bv : ℝ) : List (String × ℝ) → String
  | [] => bk
  | (k, v) :: rest => if bv < v then pymaxGo k v rest else pymaxGo bk bv rest

/-- `max(d, key=d.get)` on an association list: raises `ValueError` on an
empty mapping, otherwise returns the first key attaining the maximum value. -/
noncomputable def maxKey : List (String × ℝ) → Except String String
  | [] => Except.error "max() arg is an empty sequence"
  | (k, v) :: rest => Except.ok (pymaxGo k v rest)

/-! ## Dream pipeline orchestrator (`backendv2.py` `process_dream`) -/

/-- The four pipeline stages named by the specification. -/
inductive Stage where
  | transcribe
  | classify
  | promptSynthesis
  | imageGen
deriving DecidableEq, Repr

/-- The result dict built by `process_dream` (`backendv2.py` lines 210-217).
The `error` key is absent (`none`) unless an exception was caught. -/
structure DreamResult where
  transcription : String
  emotions : List (String × ℝ)
  image_prompt : String
  image_data : Option (List ℕ)
  dominant_emotion : String
  success : Bool
  error : Option String

/-- The initial result dict of `process_dream` before any stage runs. -/
def initResult : DreamResult :=
  { transcription := ""
    emotions := []
    image_prompt := ""
    image_data := none
    dominant_emotion := ""
    success := false
    error := none }

/-- Oracles for the four stage functions called by `process_dream`.  Each is
a remote-API wrapper, so its behaviour is a parameter; `Except.error e`
models the call raising an exception with message `e`. -/
structure Stages where
  speech_to_text : String → String → Except String String
  analyze_dream_emotion : String → Except String (List (String × ℝ))
  generate_dream_image_prompt : String → Except String String
  generate_dream_image : String → Except String (Option (List ℕ))

/-- `process_dream` (`backendv2.py` lines 199-244), together with the list of
stages actually invoked.  The body is one `try` block running the stages in
order and mutating `result`; any exception is caught, stored under the
`error` key and the partially filled result returned.  Note that computing
`dominant_emotion` with `max` raises `ValueError` when `emotions` is empty,
which the same `except` catches. -/
noncomputable def process_dream_core (st : Stages) (audio_path language : String) :
    DreamResult × List Stage :=
  match st.speech_to_text audio_path language with
  | Except.error e => ({ initResult with error := some e }, [Stage.transcribe])
  | Except.ok t =>
    match st.analyze_dream_emotion t with
    | Except.error e =>
      ({ initResult with
          transcription := t
          error := some e },
        [Stage.transcribe, Stage.classify])
    | Except.ok emos =>
      match maxKey emos with
      | Except.error e =>
        ({ initResult with
            transcription := t
            emotions := emos
            error := some e },
          [Stage.transcribe, Stage.classify])
      | Except.ok dom =>
        match st.generate_dream_image_prompt t with
        | Except.error e =>
          ({ initResult with
              transcription := t
              emotions := emos
              dominant_emotion := dom
              error := some e },
            [Stage.transcribe, Stage.classify, Stage.promptSynthesis])
        | Except.ok ip =>
          match st.generate_dream_image ip with
          | Except.error e =>
            ({ initResult with
                transcription := t
                emotions := emos
                dominant_emotion := dom
                image_prompt := ip
                error := some e },
              [Stage.transcribe, Stage.classify, Stage.promptSynthesis, Stage.imageGen])
          | Except.ok img =>
            ({ transcription := t
               emotions := emos
               image_prompt := ip
               image_data := img
               dominant_emotion := dom
               success := true
               error := none },
              [Stage.transcribe, Stage.classify, Stage.promptSynthesis, Stage.imageGen])

/-- The structured result returned by `process_dream`.  The Lean type is
total: the embedded `try`/`except` means no exception escapes. -/
noncomputable def process_dream (st : Stages) (audio_path language : String) : DreamResult :=
  (process_dream_core st audio_path language).1

/-- The stages `process_dream` actually invokes on a given run. -/
noncomputable def process_dream_trace (st : Stages) (audio_path language : String) : List Stage :=
  (process_dream_core st audio_path language).2

/-! ## Image generation, variant A (`backend.py` `generate_image`)

`requests.post` and the environment are oracles.  The response's
`json().get("url")` is modelled as an `Option String` field of the response.
The returned trace lists the request payloads actually sent. -/

/-- The JSON payload built by `generate_image` (`backend.py` lines 82-90). -/
structure ClipdropPayload where
  prompt : String
  negative_prompt : String
  style : String
  width : ℕ
  height : ℕ
  num_inference_steps : ℕ
  guidance : ℚ
deriving DecidableEq, Repr

/-- A Clipdrop HTTP response as consumed by `generate_image`: status code,
body text, and the `"url"` field of the parsed JSON body. -/
structure ClipdropResponse where
  status_code : ℕ
  text : String
  url : Option String
deriving DecidableEq, Repr

/-- Environment of `generate_image`: the `CLIPDROP_API_KEY` variable, the
contents of `synthetiseur_reve/prompt.txt`, and the remote service's
behaviour on a posted payload. -/
structure GenImageEnv where
  api_key : Option String
  prompt_file : String
  post : ClipdropPayload → ClipdropResponse

/-- `generate_image` (`backend.py` lines 72-97) with the list of payloads it
posts.  The `prompt` parameter is overwritten by the contents of
`synthetiseur_reve/prompt.txt` (line 81) before the payload is built.  On a
non-200 status the function prints the error and calls
`response.raise_for_status()`, i.e. raises; otherwise it returns
`data.get("url")`. -/
def generate_image (env : GenImageEnv) (prompt : String) :
    Except String (Option String) × List ClipdropPayload :=
  match env.api_key with
  | none =>
    (Except.error "La cle API CLIPDROP_API_KEY est manquante dans les variables d environnement.",
      [])
  | some _ =>
    let prompt := env.prompt_file
    let payload : ClipdropPayload :=
      { prompt := prompt
        negative_prompt := "flou, basse resolution, artefacts, texte, logo, watermark, mal dessine, pixelise"
        style := "dream"
        width := 512
        height := 512
        num_inference_steps := 50
        guidance := 15 / 2 }
    let response := env.post payload
    if response.status_code ≠ 200 then
      (Except.error ("HTTPError " ++ toString response.status_code), [payload])
    else
      (Except.ok response.url, [payload])

/-! ## Image generation, variant B (`backendv2.py` `generate_dream_image`) -/

/-- A raw Clipdrop response as consumed by `generate_dream_image`: status
code and binary body. -/
structure RawResponse where
  status_code : ℕ
  content : List ℕ
deriving DecidableEq, Repr

/-- `generate_dream_image` (`backendv2.py` lines 167-196).  Its one argument
of interest is the outcome of `requests.post` (a response, or a raised
transport exception); the returned pair is the function's value together
with the error lines it prints.  The whole body is wrapped in
`try`/`except`, so the Lean type is total: every failure path returns
`none` rather than raising. -/
def generate_dream_image (post : Except String RawResponse) :
    Option (List ℕ) × List String :=
  match post with
  | Except.error e =>
    (none, ["Erreur lors de la generation d image: " ++ e])
  | Except.ok r =>
    if r.status_code = 200 then
      (some r.content, [])
    else
      (none, ["Erreur API Clipdrop: " ++ toString r.status_code])

/-! ## JSON values

The JSON documents exchanged with the history file are modelled as parsed
JSON values; `json.dump` followed by `json.load` is the identity at this
level of abstraction (Python's float serialisation round-trips exactly). -/

/-- A JSON value. -/
inductive Json where
  | null : Json
  | bool (b : Bool) : Json
  | num (x : ℝ) : Json
  | str (s : String) : Json
  | arr (items : List Json) : Json
  | obj (fields : List (String × Json)) : Json

/-- Field access `d[k]` on a JSON object (first binding wins). -/
def Json.getField (j : Json) (k : String) : Option Json :=
  match j with
  | Json.obj fields => fields.lookup k
  | _ => none

/-- Encode an emotion mapping as a JSON object of numbers. -/
def encodeEmotions (emotions : List (String × ℝ)) : Json :=
  Json.obj (emotions.map (fun kv => (kv.1, Json.num kv.2)))

/-- Read an emotion mapping back out of a JSON value: every field must be a
number. -/
def decodeEmotions : Json → Option (List (String × ℝ))
  | Json.obj fields =>
    fields.foldr
      (fun kv acc =>
        match kv.2, acc with
        | Json.num x, some l => some ((kv.1, x) :: l)
        | _, _ => none)
      (some [])
  | _ => none

/-! ## History store, document-file backend
(`backendv2.py` `save_dream_to_history` / `load_dream_history`) -/

/-- The dream entry written by `save_dream_to_history`
(`backendv2.py` lines 270-276). -/
structure DreamEntry where
  timestamp : String
  transcription : String
  emotions : List (String × ℝ)
  dominant_emotion : String
  image_prompt : String

/-- JSON encoding of a dream entry, in the field order written by the code. -/
def encodeEntry (e : DreamEntry) : Json :=
  Json.obj
    [("timestamp", Json.str e.timestamp),
     ("transcription", Json.str e.transcription),
     ("emotions", encodeEmotions e.emotions),
     ("dominant_emotion", Json.str e.dominant_emotion),
     ("image_prompt", Json.str e.image_prompt)]

/-- The entry `save_dream_to_history` builds from a pipeline result and the
current time. -/
def mkEntry (now : String) (dream_data : DreamResult) : DreamEntry :=
  { timestamp := now
    transcription := dream_data.transcription
    emotions := dream_data.emotions
    dominant_emotion := dream_data.dominant_emotion
    image_prompt := dream_data.image_prompt }

/-- The state of the per-user history file `dream_history_<user_id>.json`. -/
inductive StoreFile where
  | missing : StoreFile
  | corrupt : StoreFile
  | content (j : Json) : StoreFile

/-- `save_dream_to_history` (`backendv2.py` lines 247-288): load the existing
history (missing file ⇒ `[]`), append the new entry with a timestamp, and
rewrite the whole file; any exception (unreadable JSON, or `.append` on a
non-list document) is caught and reported as `false`. -/
def save_dream_to_history (now : String) (dream_data : DreamResult) (s : StoreFile) :
    Bool × StoreFile :=
  match s with
  | StoreFile.corrupt => (false, s)
  | StoreFile.missing =>
    (true, StoreFile.content (Json.arr [encodeEntry (mkEntry now dream_data)]))
  | StoreFile.content j =>
    match j with
    | Json.arr l =>
      (true, StoreFile.content (Json.arr (l ++ [encodeEntry (mkEntry now dream_data)])))
    | _ => (false, s)

/-- `load_dream_history` (`backendv2.py` lines 291-312): return the parsed
file contents; a missing file, or any exception while reading, yields `[]`. -/
def load_dream_history (s : StoreFile) : Json :=
  match s with
  | StoreFile.missing => Json.arr []
  | StoreFile.corrupt => Json.arr []
  | StoreFile.content j => j

/-! ## History store, SQLite backend (`backend.py` `save_dream` / `list_dreams`)

A row of the `dreams` table.  The `emotion` column stores
`json.dumps(emotion)`; it is modelled at the JSON-value level, so
`json.loads` on read is the identity.  `created_at` is the
`CURRENT_TIMESTAMP` the database assigned at insert time. -/

/-- One row of the `dreams` table (`backend.py` lines 104-114). -/
structure DreamRow where
  transcription : String
  emotion : Json
  image_url : String
  created_at : ℕ

/-- A record returned by `list_dreams` (`backend.py` lines 129-136). -/
structure DreamListing where
  transcription : String
  emotion : Json
  image_url : String
  created_at : ℕ

/-- Insert a row into a list sorted by `created_at` descending (the row goes
before the first strictly older row). -/
def insertByCreatedDesc (r : DreamRow) : List DreamRow → List DreamRow
  | [] => [r]
  | x :: xs =>
    if x.created_at < r.created_at then r :: x :: xs
    else x :: insertByCreatedDesc r xs

/-- `ORDER BY created_at DESC`: one of the orders SQLite may return (the
relative order of rows with equal timestamps is unspecified by SQL). -/
def orderByCreatedDesc (rows : List DreamRow) : List DreamRow :=
  rows.foldr insertByCreatedDesc []

/-- `save_dream` (`backend.py` lines 118-123): `INSERT` one row, with the
emotion mapping JSON-encoded and `created_at` assigned by the database. -/
def save_dream (transcription : String) (emotion : List (String × ℝ))
    (image_url : String) (created_at : ℕ) (rows : List DreamRow) : List DreamRow :=
  rows ++ [{ transcription := transcription
             emotion := encodeEmotions emotion
             image_url := image_url
             created_at := created_at }]

/-- `list_dreams` (`backend.py` lines 125-137): `SELECT ... ORDER BY
created_at DESC` and build a record per row, with `json.loads` applied to
the emotion column. -/
def list_dreams (rows : List DreamRow) : List DreamListing :=
  (orderByCreatedDesc rows).map
    (fun r =>
      { transcription := r.transcription
        emotion := r.emotion
        image_url := r.image_url
        created_at := r.created_at })

/-! ## Concrete scenario inputs used by counterexamples and witnesses -/

/-- An environment in which the Clipdrop service answers 404. -/
def env404 : GenImageEnv :=
  { api_key := some "cle-test"
    prompt_file := "un reve de montagne"
    post := fun _ => { status_code := 404, text := "Not Found", url := none } }

/-- A mapping of 20001 distinct labels, all with raw score `0`. -/
noncomputable def bigPreds : List (String × ℝ) :=
  (List.range 20001).map (fun i => (toString i, (0 : ℝ)))

/-- The spec's example raw scores `{happy: 0.9, stressful: -0.3, neutral: 0.1}`. -/
noncomputable def demoPreds : List (String × ℝ) :=
  [("heureux", 9 / 10), ("stressant", -3 / 10), ("neutre", 1 / 10)]

/-- An entry already sitting in a history file. -/
def oldEntry : DreamEntry :=
  { timestamp := "2026-01-01T00:00:00"
    transcription := "vieux reve"
    emotions := [("heureux", 1)]
    dominant_emotion := "heureux"
    image_prompt := "ancienne invite" }

/-- A freshly processed dream about to be appended to the history. -/
def newDream : DreamResult :=
  { transcription := "nouveau reve"
    emotions := [("stressant", 1)]
    image_prompt := "nouvelle invite"
    image_data := none
    dominant_emotion := "stressant"
    success := true
    error := none }

/-- Stage oracles whose transcription call raises. -/
def stFailT : Stages :=
  { speech_to_text := fun _ _ => Except.error "echec transcription"
    analyze_dream_emotion := fun _ => Except.ok [("heureux", 1)]
    generate_dream_image_prompt := fun _ => Except.ok "invite"
    generate_dream_image := fun _ => Except.ok none }

/-- Stage oracles whose emotion-classification call raises. -/
def stFailC : Stages :=
  { speech_to_text := fun _ _ => Except.ok "un reve"
    analyze_dream_emotion := fun _ => Except.error "echec classification"
    generate_dream_image_prompt := fun _ => Except.ok "invite"
    generate_dream_image := fun _ => Except.ok none }

/-- Stage oracles whose prompt-synthesis call raises. -/
def stFailP : Stages :=
  { speech_to_text := fun _ _ => Except.ok "un reve"
    analyze_dream_emotion := fun _ => Except.ok [("heureux", 1)]
    generate_dream_image_prompt := fun _ => Except.error "echec invite"
    generate_dream_image := fun _ => Except.ok none }

/-- Stage oracles whose image-generation call raises. -/
def stFailI : Stages :=
  { speech_to_text := fun _ _ => Except.ok "un reve"
    analyze_dream_emotion := fun _ => Except.ok [("heureux", 1)]
    generate_dream_image_prompt := fun _ => Except.ok "invite"
    generate_dream_image := fun _ => Except.error "echec image" }

/-- Stage oracles on which every call succeeds. -/
def stAllOk : Stages :=
  { speech_to_text := fun _ _ => Except.ok "un reve"
    analyze_dream_emotion := fun _ => Except.ok [("heureux", 1)]
    generate_dream_image_prompt := fun _ => Except.ok "invite"
    generate_dream_image := fun _ => Except.ok (some [0, 1, 2]) }

/-- Stage oracles whose classifier reports a tie between two labels, with a
smaller score first. -/
def stTie : Stages :=
  { speech_to_text := fun _ _ => Except.ok "un reve"
    analyze_dream_emotion := fun _ =>
      Except.ok [("neutre", 0), ("heureux", 1), ("stressant", 1)]
    generate_dream_image_prompt := fun _ => Except.ok "invite"
    generate_dream_image := fun _ => Except.ok (some [0, 1, 2]) }

/-! ## Helper lemmas -/

/-- Both `softmax` variants as a single `List.map` over the input. -/
theorem softmax_b_unfold (preds : List (String × ℝ)) :
    softmax_b preds =
      preds.map (fun kv =>
        (kv.1, round4 (Real.exp (kv.2 * 10) /
          (preds.map (fun kw => Real.exp (kw.2 * 10))).sum))) := by
  simp only [softmax_b, List.map_map]
  rfl

/-- Rounding to 4 decimal digits is monotone. -/
theorem round4_mono {a b : ℝ} (h : a ≤ b) : round4 a ≤ round4 b := by
  unfold round4
  have h1 : round (a * 10000) ≤ round (b * 10000) := by
    rw [round_eq, round_eq]
    exact Int.floor_le_floor (by linarith)
  have h2 : ((round (a * 10000) : ℤ) : ℝ) ≤ ((round (b * 10000) : ℤ) : ℝ) := by
    exact_mod_cast h1
  linarith

/-- Rounding fixes `0`. -/
theorem round4_zero : round4 0 = 0 := by
  simp [round4]

/-- Rounding fixes `1`. -/
theorem round4_one : round4 1 = 1 := by
  unfold round4
  rw [one_mul]
  rw [show ((10000 : ℝ)) = ((10000 : ℤ) : ℝ) by norm_num, round_intCast]
  norm_num

/-- Rounding to 4 decimal digits moves a value by at most `5e-5`. -/
theorem abs_round4_sub (x : ℝ) : |round4 x - x| ≤ 1 / 20000 := by
  have h := abs_sub_round (x * 10000)
  unfold round4
  rw [show ((round (x * 10000) : ℤ) : ℝ) / 10000 - x
      = -((x * 10000 - ((round (x * 10000) : ℤ) : ℝ)) / 10000) by ring]
  rw [abs_neg, abs_div, abs_of_pos (by norm_num : (0:ℝ) < 10000)]
  linarith

/-- Sums over a common index list subtract pointwise. -/
theorem sum_map_sub {α : Type} (l : List α) (f g : α → ℝ) :
    (l.map (fun x => f x - g x)).sum = (l.map f).sum - (l.map g).sum := by
  induction l with
  | nil => simp
  | cons a t ih => simp only [List.map_cons, List.sum_cons, ih]; ring

/-- Triangle inequality for list sums. -/
theorem abs_list_sum_le (l : List ℝ) : |l.sum| ≤ (l.map (fun x => |x|)).sum := by
  induction l with
  | nil => simp
  | cons a t ih =>
    simp only [List.sum_cons, List.map_cons]
    calc |a + t.sum| ≤ |a| + |t.sum| := abs_add _ _
      _ ≤ |a| + (t.map (fun x => |x|)).sum := by linarith

/-- Division by a constant distributes over a mapped sum. -/
theorem sum_map_div {α : Type} (l : List α) (f : α → ℝ) (c : ℝ) :
    (l.map (fun x => f x / c)).sum = (l.map f).sum / c := by
  induction l with
  | nil => simp
  | cons a t ih => simp only [List.map_cons, List.sum_cons, ih]; ring

/-- The softmax denominator is positive on a non-empty mapping. -/
theorem expSum_pos (preds : List (String × ℝ)) (hne : preds ≠ []) :
    0 < (preds.map (fun kv => Real.exp (kv.2 * 10))).sum := by
  cases preds with
  | nil => exact absurd rfl hne
  | cons a t =>
    simp only [List.map_cons, List.sum_cons]
    have h2 : 0 ≤ (t.map (fun kv => Real.exp (kv.2 * 10))).sum := by
      apply List.sum_nonneg
      intro x hx
      simp only [List.mem_map] at hx
      obtain ⟨kv, _, rfl⟩ := hx
      exact (Real.exp_pos _).le
    linarith [Real.exp_pos (a.2 * 10)]

/-- Summing a constant over `List.range n`. -/
theorem sum_range_const (n : ℕ) (c : ℝ) :
    ((List.range n).map (fun _ => c)).sum = n * c := by
  induction n with
  | zero => simp
  | succ m ih =>
    rw [List.range_succ]
    simp only [List.map_append, List.sum_append, List.map_cons, List.sum_cons,
      List.map_nil, List.sum_nil, ih]
    push_cast
    ring

/-! ## Claim C9 -/

/-- Claim C9: the output of `backend.py`'s `generate_image` is independent of
its `prompt` argument: with the environment (API key, `prompt.txt` contents,
remote service) held fixed, two calls with different prompts issue the
identical request payloads and return the same result, because the argument
is overwritten by the contents of `synthetiseur_reve/prompt.txt` before the
payload is built. -/
theorem generate_image_prompt_independent (env : GenImageEnv) (p1 p2 : String) :
    (generate_image env p1).2 = (generate_image env p2).2 ∧
    (generate_image env p1).1 = (generate_image env p2).1 :=
  ⟨rfl, rfl⟩

/-! ## Claim C10 -/

/-- Claim C10: the two Score Normalizer implementations agree up to final
rounding: `backend.py`'s `softmax` equals `backendv2.py`'s `softmax` with
each output value rounded to 4 decimal digits. -/
theorem softmax_b_eq_rounded_softmax_v2 (preds : List (String × ℝ)) :
    softmax_b preds = (softmax_v2 preds).map (fun kv => (kv.1, round4 kv.2)) := by
  rw [softmax_b_unfold]
  simp only [softmax_v2, List.map_map]
  rfl

/-! ## Claim C8 -/

/-- Claim C8: for both History Store backends, listing all records on an
empty or never-written store returns an empty sequence rather than failing:
`load_dream_history` returns `[]` on a missing file, on an unreadable file
(the exception is caught), and on a file holding an empty array, and
`list_dreams` returns `[]` on an empty table. -/
theorem empty_store_lists_empty :
    load_dream_history StoreFile.missing = Json.arr [] ∧
    load_dream_history StoreFile.corrupt = Json.arr [] ∧
    load_dream_history (StoreFile.content (Json.arr [])) = Json.arr [] ∧
    list_dreams [] = [] :=
  ⟨rfl, rfl, rfl, rfl⟩

/-! ## Claim C3

The claim is false for `backend.py`'s `generate_image`, which logs the
non-success status and then calls `response.raise_for_status()`, i.e. raises
to its caller (`app.py` calls it with no handler).  It is true of
`backendv2.py`'s `generate_dream_image`. -/

/-- Claim C3, counterexample: with the API key present and the service
answering 404, `backend.py`'s `generate_image` raises (an `Except.error`)
instead of returning a "no image" signal to its caller. -/
theorem generate_image_raises_on_404 :
    (generate_image env404 "une invite quelconque").1 = Except.error "HTTPError 404" := by
  rfl

/-- Claim C3, amended: for `backendv2.py`'s `generate_dream_image`, a
non-success HTTP status does not crash the caller: the failure is logged and
the caller receives `none`; likewise a raised transport error is caught,
logged, and turned into `none`.  (`backend.py`'s `generate_image`, by
contrast, raises on non-success status.) -/
theorem generate_dream_image_no_raise (r : RawResponse) (e : String)
    (h : r.status_code ≠ 200) :
    (generate_dream_image (Except.ok r)).1 = none ∧
    (generate_dream_image (Except.ok r)).2 ≠ [] ∧
    (generate_dream_image (Except.error e)).1 = none ∧
    (generate_dream_image (Except.error e)).2 ≠ [] := by
  simp [generate_dream_image, h]

/-- Witness for the amended claim C3 at a concrete 404 response. -/
theorem generate_dream_image_no_raise_witness :
    (generate_dream_image (Except.ok { status_code := 404, content := [] })).1 = none ∧
    (generate_dream_image (Except.ok { status_code := 404, content := [] })).2 ≠ [] ∧
    (generate_dream_image (Except.error "delai depasse")).1 = none ∧
    (generate_dream_image (Except.error "delai depasse")).2 ≠ [] :=
  generate_dream_image_no_raise { status_code := 404, content := [] }
    "delai depasse" (by decide)

/-! ## Claim C4

As stated ("for every non-empty mapping") the tolerance part of the claim is
false: rounding each output to 4 decimal digits can move each value by up to
`5e-5`, so the rounded sum can drift from `1` by about `n * 5e-5` over `n`
labels.  With 20001 labels of equal score every output rounds to `0` and the
sum is `0`.  The claim holds whenever the mapping has at most 20 labels. -/

/-- Claim C4, counterexample: on 20001 labels with equal raw scores the
mapping is non-empty, yet the rounded softmax outputs sum to `0`, which is
not within `0.001` of `1`. -/
theorem softmax_b_tolerance_fails :
    bigPreds ≠ [] ∧
    ¬ |((softmax_b bigPreds).map Prod.snd).sum - 1| ≤ 1 / 1000 := by
  have hT : (bigPreds.map (fun kw => Real.exp (kw.2 * 10))).sum = 20001 := by
    simp only [bigPreds, List.map_map]
    have hfun : ((fun kw : String × ℝ => Real.exp (kw.2 * 10)) ∘
        fun i : ℕ => (toString i, (0 : ℝ))) = fun _ : ℕ => (1 : ℝ) := by
      funext i
      simp [Function.comp, Real.exp_zero]
    rw [hfun, sum_range_const]
    norm_num
  have hval : round4 ((1 : ℝ) / 20001) = 0 := by
    unfold round4
    have hr : round ((1 / 20001 : ℝ) * 10000) = 0 := by
      rw [round_eq]
      rw [Int.floor_eq_zero_iff]
      constructor <;> norm_num
    rw [hr]
    norm_num
  have hsum : ((softmax_b bigPreds).map Prod.snd).sum = 0 := by
    rw [softmax_b_unfold bigPreds, hT]
    simp only [bigPreds, List.map_map]
    have hfun : (Prod.snd ∘ ((fun kv : String × ℝ =>
          (kv.1, round4 (Real.exp (kv.2 * 10) / 20001))) ∘
          fun i : ℕ => (toString i, (0 : ℝ)))) = fun _ : ℕ => (0 : ℝ) := by
      funext i
      simp only [Function.comp]
      rw [show (0 : ℝ) * 10 = 0 by ring, Real.exp_zero]
      exact hval
    rw [hfun, sum_range_const]
    ring
  refine ⟨by simp [bigPreds], ?_⟩
  rw [hsum]
  rw [show |(0 : ℝ) - 1| = 1 by rw [zero_sub, abs_neg, abs_one]]
  norm_num

/-- Claim C4, amended: for every non-empty mapping of raw scores the
Normalizer returns a mapping over exactly the same labels, each output value
lies in `[0, 1]`, and — when the mapping has at most 20 labels, which covers
the fixed five-label emotion vocabulary — the outputs sum to `1.0` within a
tolerance of `0.001`. -/
theorem softmax_b_normalizes (preds : List (String × ℝ)) (hne : preds ≠ []) :
    (softmax_b preds).map Prod.fst = preds.map Prod.fst ∧
    (∀ kv ∈ softmax_b preds, 0 ≤ kv.2 ∧ kv.2 ≤ 1) ∧
    (preds.length ≤ 20 →
      |((softmax_b preds).map Prod.snd).sum - 1| ≤ 1 / 1000) := by
  have hT : 0 < (preds.map (fun kw => Real.exp (kw.2 * 10))).sum :=
    expSum_pos preds hne
  refine ⟨?_, ?_, ?_⟩
  · rw [softmax_b_unfold]
    simp [List.map_map, Function.comp]
  · intro kv hkv
    rw [softmax_b_unfold] at hkv
    simp only [List.mem_map] at hkv
    obtain ⟨kw, hmem, rfl⟩ := hkv
    have hle : Real.exp (kw.2 * 10) ≤ (preds.map (fun kw => Real.exp (kw.2 * 10))).sum := by
      apply List.single_le_sum
      · intro x hx
        simp only [List.mem_map] at hx
        obtain ⟨kv2, _, rfl⟩ := hx
        exact (Real.exp_pos _).le
      · exact List.mem_map_of_mem _ hmem
    have h0 : 0 ≤ Real.exp (kw.2 * 10) / (preds.map (fun kw => Real.exp (kw.2 * 10))).sum :=
      div_nonneg (Real.exp_pos _).le hT.le
    have h1 : Real.exp (kw.2 * 10) / (preds.map (fun kw => Real.exp (kw.2 * 10))).sum ≤ 1 :=
      (div_le_one hT).mpr hle
    constructor
    · have h2 := round4_mono h0
      rwa [round4_zero] at h2
    · have h2 := round4_mono h1
      rwa [round4_one] at h2
  · intro hlen
    have hsum1 : (preds.map (fun kw =>
        Real.exp (kw.2 * 10) / (preds.map (fun kw => Real.exp (kw.2 * 10))).sum)).sum = 1 := by
      rw [sum_map_div, div_self hT.ne']
    have hrw : ((softmax_b preds).map Prod.snd).sum
        = (preds.map (fun kw => round4 (Real.exp (kw.2 * 10) /
            (preds.map (fun kw => Real.exp (kw.2 * 10))).sum))).sum := by
      rw [softmax_b_unfold]
      rw [List.map_map]
      rfl
    have hdiff : (preds.map (fun kw => round4 (Real.exp (kw.2 * 10) /
          (preds.map (fun kw => Real.exp (kw.2 * 10))).sum))).sum - 1
        = (preds.map (fun kw => round4 (Real.exp (kw.2 * 10) /
            (preds.map (fun kw => Real.exp (kw.2 * 10))).sum)
          - Real.exp (kw.2 * 10) / (preds.map (fun kw => Real.exp (kw.2 * 10))).sum)).sum := by
      rw [sum_map_sub, hsum1]
    rw [hrw, hdiff]
    have habs : ∀ x ∈ preds.map (fun kw => |round4 (Real.exp (kw.2 * 10) /
        (preds.map (fun kw => Real.exp (kw.2 * 10))).sum)
        - Real.exp (kw.2 * 10) / (preds.map (fun kw => Real.exp (kw.2 * 10))).sum|),
        x ≤ 1 / 20000 := by
      intro x hx
      simp only [List.mem_map] at hx
      obtain ⟨kw, _, rfl⟩ := hx
      exact abs_round4_sub _
    calc |(preds.map (fun kw => round4 (Real.exp (kw.2 * 10) /
            (preds.map (fun kw => Real.exp (kw.2 * 10))).sum)
          - Real.exp (kw.2 * 10) / (preds.map (fun kw => Real.exp (kw.2 * 10))).sum)).sum|
        ≤ (preds.map (fun kw => |round4 (Real.exp (kw.2 * 10) /
            (preds.map (fun kw => Real.exp (kw.2 * 10))).sum)
          - Real.exp (kw.2 * 10) / (preds.map (fun kw => Real.exp (kw.2 * 10))).sum|)).sum := by
          have h := abs_list_sum_le (preds.map (fun kw => round4 (Real.exp (kw.2 * 10) /
            (preds.map (fun kw => Real.exp (kw.2 * 10))).sum)
            - Real.exp (kw.2 * 10) / (preds.map (fun kw => Real.exp (kw.2 * 10))).sum))
          rw [List.map_map] at h
          exact h
      _ ≤ (preds.map (fun kw => |round4 (Real.exp (kw.2 * 10) /
            (preds.map (fun kw => Real.exp (kw.2 * 10))).sum)
          - Real.exp (kw.2 * 10) / (preds.map (fun kw => Real.exp (kw.2 * 10))).sum|)).length
            • (1 / 20000 : ℝ) := List.sum_le_card_nsmul _ _ habs
      _ ≤ 1 / 1000 := by
          rw [List.length_map, nsmul_eq_mul]
          have hc : (preds.length : ℝ) ≤ 20 := by exact_mod_cast hlen
          nlinarith

/-- Witness for the amended claim C4 at the spec's own example scores, with
both the non-emptiness and the label-count hypotheses discharged. -/
theorem softmax_b_normalizes_witness :
    (softmax_b demoPreds).map Prod.fst = demoPreds.map Prod.fst ∧
    (∀ kv ∈ softmax_b demoPreds, 0 ≤ kv.2 ∧ kv.2 ≤ 1) ∧
    |((softmax_b demoPreds).map Prod.snd).sum - 1| ≤ 1 / 1000 :=
  ⟨(softmax_b_normalizes demoPreds (by simp [demoPreds])).1,
    (softmax_b_normalizes demoPreds (by simp [demoPreds])).2.1,
    (softmax_b_normalizes demoPreds (by simp [demoPreds])).2.2
      (by norm_num [demoPreds])⟩

/-! ## Claim C5 -/

/-- Entry extraction commutes with a key-preserving map at the position of
the distinguished middle element. -/
theorem getD_map_middle (g : (String × ℝ) → (String × ℝ))
    (l₁ l₂ : List (String × ℝ)) (x : String × ℝ) :
    ((l₁ ++ x :: l₂).map g).getD l₁.length ("", 0) = g x := by
  induction l₁ with
  | nil => simp
  | cons h t ih => simpa using ih

/-- Monotonicity of `t ↦ t / (u + t)` on positives with a nonnegative rest. -/
theorem ratio_mono {ea eb u : ℝ} (hea : 0 < ea) (heb : 0 < eb) (hu : 0 ≤ u)
    (h : ea ≤ eb) : ea / (u + ea) ≤ eb / (u + eb) := by
  rw [div_le_div_iff (by linarith) (by linarith)]
  nlinarith

/-- Claim C5: the Score Normalizer is monotonic: increasing one label's raw
score while holding all other scores fixed never decreases that label's
output probability — both for the unrounded `backendv2.py` softmax and for
the rounded `backend.py` softmax. -/
theorem softmax_monotone (l₁ l₂ : List (String × ℝ)) (lbl : String) (a b : ℝ)
    (hab : a ≤ b) :
    entryVal (softmax_v2 (l₁ ++ (lbl, a) :: l₂)) l₁.length ≤
      entryVal (softmax_v2 (l₁ ++ (lbl, b) :: l₂)) l₁.length ∧
    entryVal (softmax_b (l₁ ++ (lbl, a) :: l₂)) l₁.length ≤
      entryVal (softmax_b (l₁ ++ (lbl, b) :: l₂)) l₁.length := by
  have key : ∀ c : ℝ, entryVal (softmax_v2 (l₁ ++ (lbl, c) :: l₂)) l₁.length
      = Real.exp (c * 10) /
        (((l₁.map (fun kw => Real.exp (kw.2 * 10))).sum
          + (l₂.map (fun kw => Real.exp (kw.2 * 10))).sum) + Real.exp (c * 10)) := by
    intro c
    unfold entryVal softmax_v2
    rw [getD_map_middle]
    simp only [List.map_append, List.sum_append, List.map_cons, List.sum_cons]
    congr 1
    ring
  have keyb : ∀ c : ℝ, entryVal (softmax_b (l₁ ++ (lbl, c) :: l₂)) l₁.length
      = round4 (entryVal (softmax_v2 (l₁ ++ (lbl, c) :: l₂)) l₁.length) := by
    intro c
    unfold entryVal
    rw [softmax_b_unfold, getD_map_middle]
    unfold softmax_v2
    rw [getD_map_middle]
  have hS : 0 ≤ (l₁.map (fun kw => Real.exp (kw.2 * 10))).sum
      + (l₂.map (fun kw => Real.exp (kw.2 * 10))).sum := by
    have h1 : 0 ≤ (l₁.map (fun kw => Real.exp (kw.2 * 10))).sum := by
      apply List.sum_nonneg
      intro x hx
      simp only [List.mem_map] at hx
      obtain ⟨kv, _, rfl⟩ := hx
      exact (Real.exp_pos _).le
    have h2 : 0 ≤ (l₂.map (fun kw => Real.exp (kw.2 * 10))).sum := by
      apply List.sum_nonneg
      intro x hx
      simp only [List.mem_map] at hx
      obtain ⟨kv, _, rfl⟩ := hx
      exact (Real.exp_pos _).le
    linarith
  have hmain : entryVal (softmax_v2 (l₁ ++ (lbl, a) :: l₂)) l₁.length ≤
      entryVal (softmax_v2 (l₁ ++ (lbl, b) :: l₂)) l₁.length := by
    rw [key a, key b]
    exact ratio_mono (Real.exp_pos _) (Real.exp_pos _) hS
      (Real.exp_le_exp.mpr (by linarith))
  exact ⟨hmain, by rw [keyb a, keyb b]; exact round4_mono hmain⟩

/-- Witness for claim C5: raising the score of `"heureux"` from `0` to `1`
with one other label fixed does not decrease its output probability. -/
theorem softmax_monotone_witness :
    ((0 : ℝ) ≤ 1) ∧
    (entryVal (softmax_v2 ([("autre", 1 / 2)] ++ ("heureux", (0 : ℝ)) :: [])) 1 ≤
      entryVal (softmax_v2 ([("autre", 1 / 2)] ++ ("heureux", (1 : ℝ)) :: [])) 1 ∧
    entryVal (softmax_b ([("autre", 1 / 2)] ++ ("heureux", (0 : ℝ)) :: [])) 1 ≤
      entryVal (softmax_b ([("autre", 1 / 2)] ++ ("heureux", (1 : ℝ)) :: [])) 1) :=
  ⟨by norm_num, softmax_monotone [("autre", 1 / 2)] [] "heureux" 0 1 (by norm_num)⟩

/-! ## Claims about the orchestrator -/

/-- Characterisation of Python `max` with a key function: the returned key
splits the iterated entries into a prefix whose values are all strictly
below the maximum and a suffix whose values are all at most the maximum,
i.e. it is the first key attaining the maximum value. -/
theorem pymaxGo_spec (rest : List (String × ℝ)) (bk : String) (bv : ℝ) :
    ∃ l₁ m l₂,
      (bk, bv) :: rest = l₁ ++ (pymaxGo bk bv rest, m) :: l₂ ∧
      (∀ kv ∈ l₁, kv.2 < m) ∧ (∀ kv ∈ l₂, kv.2 ≤ m) := by
  induction rest generalizing bk bv with
  | nil =>
    refine ⟨[], bv, [], ?_, ?_, ?_⟩ <;> simp [pymaxGo]
  | cons hd tl ih =>
    obtain ⟨k, v⟩ := hd
    by_cases hlt : bv < v
    · obtain ⟨l₁, m, l₂, heq, h₁, h₂⟩ := ih k v
      cases l₁ with
      | nil =>
        simp only [List.nil_append] at heq
        injection heq with hpair htl
        have hm : v = m := congrArg Prod.snd hpair
        refine ⟨[(bk, bv)], m, l₂, ?_, ?_, h₂⟩
        · simp only [pymaxGo, if_pos hlt, List.cons_append, List.nil_append]
          exact congrArg (List.cons (bk, bv)) (by rw [← hpair, ← htl])
        · intro kv hkv
          simp only [List.mem_singleton] at hkv
          subst hkv
          show bv < m
          rw [← hm]
          exact hlt
      | cons x l₁' =>
        simp only [List.cons_append] at heq
        obtain ⟨hpair, htl⟩ := List.cons_eq_cons.mp heq
        have hvm : v < m := by
          have hx : x.2 < m := h₁ x (by simp)
          rw [← hpair] at hx
          exact hx
        refine ⟨(bk, bv) :: x :: l₁', m, l₂, ?_, ?_, h₂⟩
        · simp only [pymaxGo, if_pos hlt, List.cons_append]
          exact congrArg (List.cons (bk, bv)) heq
        · intro kv hkv
          rcases List.mem_cons.mp hkv with rfl | hkv'
          · show bv < m
            linarith
          · exact h₁ kv hkv'
    · obtain ⟨l₁, m, l₂, heq, h₁, h₂⟩ := ih bk bv
      cases l₁ with
      | nil =>
        simp only [List.nil_append] at heq
        injection heq with hpair htl
        have hm : bv = m := congrArg Prod.snd hpair
        refine ⟨[], m, (k, v) :: l₂, ?_, by simp, ?_⟩
        · simp only [pymaxGo, if_neg hlt, List.nil_append]
          rw [← hpair, ← htl]
        · intro kv hkv
          rcases List.mem_cons.mp hkv with rfl | hkv'
          · show v ≤ m
            rw [← hm]
            exact le_of_not_lt hlt
          · exact h₂ kv hkv'
      | cons x l₁' =>
        simp only [List.cons_append] at heq
        obtain ⟨hpair, htl⟩ := List.cons_eq_cons.mp heq
        have hbm : bv < m := by
          have hx : x.2 < m := h₁ x (by simp)
          rw [← hpair] at hx
          exact hx
        refine ⟨(bk, bv) :: (k, v) :: l₁', m, l₂, ?_, ?_, h₂⟩
        · simp only [pymaxGo, if_neg hlt, List.cons_append]
          exact congrArg (List.cons (bk, bv)) (congrArg (List.cons (k, v)) htl)
        · intro kv hkv
          rcases List.mem_cons.mp hkv with rfl | hkv'
          · exact hbm
          · rcases List.mem_cons.mp hkv' with rfl | hkv''
            · show v < m
              have hvb : v ≤ bv := le_of_not_lt hlt
              linarith
            · exact h₁ kv (List.mem_cons_of_mem x hkv'')

/-- Claim C1: for every audio path and language the orchestrator returns a
structured result (the Lean embedding is a total function, mirroring the
all-enclosing `try`/`except`); if any of the four stages raises, the result
has `success = false` and an error message equal to the raised error's
(non-empty) message, and no stage after the failing one is ever invoked
(the invocation trace stops at the failing stage). -/
theorem process_dream_failfast (st : Stages) (audio lang : String) :
    (∀ e, e ≠ "" → st.speech_to_text audio lang = Except.error e →
      (process_dream st audio lang).success = false ∧
      (process_dream st audio lang).error = some e ∧
      (process_dream st audio lang).error ≠ some "" ∧
      process_dream_trace st audio lang = [Stage.transcribe]) ∧
    (∀ t e, e ≠ "" → st.speech_to_text audio lang = Except.ok t →
      st.analyze_dream_emotion t = Except.error e →
      (process_dream st audio lang).success = false ∧
      (process_dream st audio lang).error = some e ∧
      (process_dream st audio lang).error ≠ some "" ∧
      process_dream_trace st audio lang = [Stage.transcribe, Stage.classify]) ∧
    (∀ t emos dom e, e ≠ "" → st.speech_to_text audio lang = Except.ok t →
      st.analyze_dream_emotion t = Except.ok emos →
      maxKey emos = Except.ok dom →
      st.generate_dream_image_prompt t = Except.error e →
      (process_dream st audio lang).success = false ∧
      (process_dream st audio lang).error = some e ∧
      (process_dream st audio lang).error ≠ some "" ∧
      process_dream_trace st audio lang
        = [Stage.transcribe, Stage.classify, Stage.promptSynthesis]) ∧
    (∀ t emos dom ip e, e ≠ "" → st.speech_to_text audio lang = Except.ok t →
      st.analyze_dream_emotion t = Except.ok emos →
      maxKey emos = Except.ok dom →
      st.generate_dream_image_prompt t = Except.ok ip →
      st.generate_dream_image ip = Except.error e →
      (process_dream st audio lang).success = false ∧
      (process_dream st audio lang).error = some e ∧
      (process_dream st audio lang).error ≠ some "" ∧
      process_dream_trace st audio lang
        = [Stage.transcribe, Stage.classify, Stage.promptSynthesis, Stage.imageGen]) := by
  refine ⟨?_, ?_, ?_, ?_⟩
  · intro e he h1
    unfold process_dream process_dream_trace process_dream_core
    simp [h1, he, initResult]
  · intro t e he h1 h2
    unfold process_dream process_dream_trace process_dream_core
    simp [h1, h2, he, initResult]
  · intro t emos dom e he h1 h2 h3 h4
    unfold process_dream process_dream_trace process_dream_core
    simp [h1, h2, h3, h4, he, initResult]
  · intro t emos dom ip e he h1 h2 h3 h4 h5
    unfold process_dream process_dream_trace process_dream_core
    simp [h1, h2, h3, h4, h5, he, initResult]

/-- Witness for claim C1: four concrete stage configurations, each failing
at a different stage, showing the structured failure result and the
truncated invocation trace. -/
theorem process_dream_failfast_witness :
    ((process_dream stFailT "audio.wav" "fr").success = false ∧
      (process_dream stFailT "audio.wav" "fr").error = some "echec transcription" ∧
      (process_dream stFailT "audio.wav" "fr").error ≠ some "" ∧
      process_dream_trace stFailT "audio.wav" "fr" = [Stage.transcribe]) ∧
    ((process_dream stFailC "audio.wav" "fr").success = false ∧
      (process_dream stFailC "audio.wav" "fr").error = some "echec classification" ∧
      (process_dream stFailC "audio.wav" "fr").error ≠ some "" ∧
      process_dream_trace stFailC "audio.wav" "fr"
        = [Stage.transcribe, Stage.classify]) ∧
    ((process_dream stFailP "audio.wav" "fr").success = false ∧
      (process_dream stFailP "audio.wav" "fr").error = some "echec invite" ∧
      (process_dream stFailP "audio.wav" "fr").error ≠ some "" ∧
      process_dream_trace stFailP "audio.wav" "fr"
        = [Stage.transcribe, Stage.classify, Stage.promptSynthesis]) ∧
    ((process_dream stFailI "audio.wav" "fr").success = false ∧
      (process_dream stFailI "audio.wav" "fr").error = some "echec image" ∧
      (process_dream stFailI "audio.wav" "fr").error ≠ some "" ∧
      process_dream_trace stFailI "audio.wav" "fr"
        = [Stage.transcribe, Stage.classify, Stage.promptSynthesis, Stage.imageGen]) :=
  ⟨(process_dream_failfast stFailT "audio.wav" "fr").1
      "echec transcription" (by decide) rfl,
    (process_dream_failfast stFailC "audio.wav" "fr").2.1
      "un reve" "echec classification" (by decide) rfl rfl,
    (process_dream_failfast stFailP "audio.wav" "fr").2.2.1
      "un reve" [("heureux", 1)] "heureux" "echec invite" (by decide) rfl rfl rfl rfl,
    (process_dream_failfast stFailI "audio.wav" "fr").2.2.2
      "un reve" [("heureux", 1)] "heureux" "invite" "echec image" (by decide)
      rfl rfl rfl rfl rfl⟩

/-- Claim C6: whenever the orchestrator's result has `success = true`, the
`emotions` mapping is non-empty, whatever mapping the classification stage
returned: with an empty mapping, computing the dominant emotion with `max`
raises and the pipeline fails. -/
theorem success_implies_emotions_nonempty (st : Stages) (audio lang : String)
    (h : (process_dream st audio lang).success = true) :
    (process_dream st audio lang).emotions ≠ [] := by
  unfold process_dream process_dream_core at h ⊢
  rcases h1 : st.speech_to_text audio lang with e | t <;> simp only [h1] at h ⊢
  · simp [initResult] at h
  rcases h2 : st.analyze_dream_emotion t with e | emos <;> simp only [h2] at h ⊢
  · simp [initResult] at h
  rcases h3 : maxKey emos with e | dom <;> simp only [h3] at h ⊢
  · simp [initResult] at h
  rcases h4 : st.generate_dream_image_prompt t with e | ip <;> simp only [h4] at h ⊢
  · simp [initResult] at h
  rcases h5 : st.generate_dream_image ip with e | img <;> simp only [h5] at h ⊢
  · simp [initResult] at h
  cases emos with
  | nil => simp [maxKey] at h3
  | cons hd tl => simp

/-- Witness for claim C6 at an all-successful concrete run. -/
theorem success_implies_emotions_nonempty_witness :
    (process_dream stAllOk "audio.wav" "fr").emotions ≠ [] :=
  success_implies_emotions_nonempty stAllOk "audio.wav" "fr" rfl

/-- Claim C7: in every successfully produced result, `dominant_emotion` is
the key of the `emotions` mapping holding the maximum value, ties broken in
favour of the key encountered first in iteration order: the mapping splits
as a prefix of strictly smaller values, the dominant entry, and a suffix of
values at most the maximum. -/
theorem dominant_emotion_is_first_max (st : Stages) (audio lang : String)
    (h : (process_dream st audio lang).success = true) :
    ∃ l₁ m l₂,
      (process_dream st audio lang).emotions
        = l₁ ++ ((process_dream st audio lang).dominant_emotion, m) :: l₂ ∧
      (∀ kv ∈ l₁, kv.2 < m) ∧ (∀ kv ∈ l₂, kv.2 ≤ m) := by
  unfold process_dream process_dream_core at h ⊢
  rcases h1 : st.speech_to_text audio lang with e | t <;> simp only [h1] at h ⊢
  · simp [initResult] at h
  rcases h2 : st.analyze_dream_emotion t with e | emos <;> simp only [h2] at h ⊢
  · simp [initResult] at h
  rcases h3 : maxKey emos with e | dom <;> simp only [h3] at h ⊢
  · simp [initResult] at h
  rcases h4 : st.generate_dream_image_prompt t with e | ip <;> simp only [h4] at h ⊢
  · simp [initResult] at h
  rcases h5 : st.generate_dream_image ip with e | img <;> simp only [h5] at h ⊢
  · simp [initResult] at h
  cases emos with
  | nil => simp [maxKey] at h3
  | cons hd tl =>
    obtain ⟨k, v⟩ := hd
    simp only [maxKey, Except.ok.injEq] at h3
    subst h3
    exact pymaxGo_spec tl k v

/-- Witness for claim C7 at a concrete run whose classifier reports a tie
(`heureux` and `stressant` both at `1`, with `neutre` lower and first). -/
theorem dominant_emotion_is_first_max_witness :
    ∃ l₁ m l₂,
      (process_dream stTie "audio.wav" "fr").emotions
        = l₁ ++ ((process_dream stTie "audio.wav" "fr").dominant_emotion, m) :: l₂ ∧
      (∀ kv ∈ l₁, kv.2 < m) ∧ (∀ kv ∈ l₂, kv.2 ≤ m) :=
  dominant_emotion_is_first_max stTie "audio.wav" "fr" (by
    unfold process_dream process_dream_core stTie
    simp [maxKey])

/-! ## Claim C2

The round-trip half of the claim holds, but the ordering half is false for
the document-file backend: `save_dream_to_history` appends the new entry at
the END of the JSON array and `load_dream_history` returns the file in
stored order, so `append` followed by `listAll` returns the appended record
last, not first.  (The UI re-sorts for display; the store itself is
oldest-first.)  The SQLite backend's `list_dreams` does order newest-first. -/

/-- Decoding inverts encoding on emotion mappings. -/
theorem decodeEmotions_encode (l : List (String × ℝ)) :
    decodeEmotions (encodeEmotions l) = some l := by
  induction l with
  | nil => rfl
  | cons a t ih =>
    simp only [encodeEmotions, decodeEmotions, List.map_cons, List.foldr_cons] at ih ⊢
    rw [ih]

/-- Folding rows whose timestamps are all older into a descending-sorted
accumulator headed by `r` keeps `r` first. -/
theorem foldr_insert_head (rows : List DreamRow) (r : DreamRow) (acc : List DreamRow)
    (hacc : ∃ rest, acc = r :: rest)
    (hlt : ∀ x ∈ rows, x.created_at < r.created_at) :
    ∃ rest, rows.foldr insertByCreatedDesc acc = r :: rest := by
  induction rows with
  | nil => exact hacc
  | cons x xs ih =>
    obtain ⟨rest, hrest⟩ := ih (fun y hy => hlt y (List.mem_cons_of_mem x hy))
    rw [List.foldr_cons, hrest]
    have hx : ¬ r.created_at < x.created_at := by
      have := hlt x (List.mem_cons_self x xs)
      omega
    simp only [insertByCreatedDesc, if_neg hx]
    exact ⟨insertByCreatedDesc x rest, rfl⟩

/-- Claim C2, counterexample: with one entry already in the history file,
appending a new dream and listing returns the OLD record first — the
appended record comes last, so "returns the appended record first" fails on
the document-file backend. -/
theorem history_append_not_first :
    (save_dream_to_history "2026-01-02T00:00:00" newDream
        (StoreFile.content (Json.arr [encodeEntry oldEntry]))).1 = true ∧
    load_dream_history
        (save_dream_to_history "2026-01-02T00:00:00" newDream
          (StoreFile.content (Json.arr [encodeEntry oldEntry]))).2
      = Json.arr [encodeEntry oldEntry,
          encodeEntry (mkEntry "2026-01-02T00:00:00" newDream)] ∧
    encodeEntry oldEntry ≠ encodeEntry (mkEntry "2026-01-02T00:00:00" newDream) := by
  refine ⟨rfl, rfl, ?_⟩
  simp [encodeEntry, oldEntry, mkEntry, newDream]

/-- Claim C2, amended: for the document-file backend, `append` followed by
`listAll` returns the appended record LAST (the store keeps insertion
order), with the fields `transcription`, `emotions` and `dominant_emotion`
round-tripped unchanged; for the SQLite backend, whose `list_dreams` orders
newest-first, a record saved with a strictly newest timestamp is returned
first, with its emotion mapping round-tripped unchanged. -/
theorem history_append_roundtrip
    (l : List Json) (rows : List DreamRow) (now transcription image_url : String)
    (d : DreamResult) (emotion : List (String × ℝ)) (created_at : ℕ)
    (hts : ∀ r ∈ rows, r.created_at < created_at) :
    save_dream_to_history now d (StoreFile.content (Json.arr l)) =
      (true, StoreFile.content (Json.arr (l ++ [encodeEntry (mkEntry now d)]))) ∧
    load_dream_history
        (save_dream_to_history now d (StoreFile.content (Json.arr l))).2 =
      Json.arr (l ++ [encodeEntry (mkEntry now d)]) ∧
    (encodeEntry (mkEntry now d)).getField "transcription"
      = some (Json.str d.transcription) ∧
    (encodeEntry (mkEntry now d)).getField "dominant_emotion"
      = some (Json.str d.dominant_emotion) ∧
    ((encodeEntry (mkEntry now d)).getField "emotions").bind decodeEmotions
      = some d.emotions ∧
    (list_dreams (save_dream transcription emotion image_url created_at rows)).head?
      = some { transcription := transcription
               emotion := encodeEmotions emotion
               image_url := image_url
               created_at := created_at } ∧
    decodeEmotions (encodeEmotions emotion) = some emotion := by
  refine ⟨rfl, rfl, rfl, rfl, decodeEmotions_encode d.emotions, ?_,
    decodeEmotions_encode emotion⟩
  unfold list_dreams save_dream orderByCreatedDesc
  rw [List.foldr_append]
  obtain ⟨rest, hrest⟩ := foldr_insert_head rows
    { transcription := transcription
      emotion := encodeEmotions emotion
      image_url := image_url
      created_at := created_at }
    (List.foldr insertByCreatedDesc []
      [{ transcription := transcription
         emotion := encodeEmotions emotion
         image_url := image_url
         created_at := created_at }])
    ⟨[], rfl⟩ hts
  rw [hrest]
  simp

/-- Witness for the amended claim C2 on an empty store and an empty table. -/
theorem history_append_roundtrip_witness :
    save_dream_to_history "2026-01-02T00:00:00" newDream
        (StoreFile.content (Json.arr [])) =
      (true, StoreFile.content
        (Json.arr ([] ++ [encodeEntry (mkEntry "2026-01-02T00:00:00" newDream)]))) ∧
    load_dream_history
        (save_dream_to_history "2026-01-02T00:00:00" newDream
          (StoreFile.content (Json.arr []))).2 =
      Json.arr ([] ++ [encodeEntry (mkEntry "2026-01-02T00:00:00" newDream)]) ∧
    (encodeEntry (mkEntry "2026-01-02T00:00:00" newDream)).getField "transcription"
      = some (Json.str newDream.transcription) ∧
    (encodeEntry (mkEntry "2026-01-02T00:00:00" newDream)).getField "dominant_emotion"
      = some (Json.str newDream.dominant_emotion) ∧
    ((encodeEntry (mkEntry "2026-01-02T00:00:00" newDream)).getField "emotions").bind
        decodeEmotions
      = some newDream.emotions ∧
    (list_dreams (save_dream "un reve de test" [("heureux", 1)] "http://image" 1 [])).head?
      = some { transcription := "un reve de test"
               emotion := encodeEmotions [("heureux", 1)]
               image_url := "http://image"
               created_at := 1 } ∧
    decodeEmotions (encodeEmotions [("heureux", 1)]) = some [("heureux", 1)] :=
  history_append_roundtrip [] [] "2026-01-02T00:00:00" "un reve de test"
    "http://image" newDream [("heureux", 1)] 1 (by simp)

end DreamSynth
